import Mathlib

/-!
Shallow embedding of the database-connection resilience layer of `src/db.py`
(repository Naidmen12/fastapi-supabase): the process-wide circuit breaker
(`_record_failure`, `_record_success`, `_circuit_is_open`) and the
request-scoped acquisition generator `obtener_bd` with its retry loop,
exponential backoff with jitter, and error classification.

Modelling conventions:
* Monotonic timestamps (`time.monotonic()`) and delays are rationals (`ℚ`);
  the several `_now()` calls inside the breaker-open branch of `obtener_bd`
  (lines 129-131 of db.py) are treated as a single instant `t0`.
* The environment-derived integer constants (`CB_FAILURE_THRESHOLD`,
  `CB_COOLDOWN`, `DB_RETRIES`) are naturals, `DB_INITIAL_DELAY` a rational,
  collected in a `Config` record; the module defaults are `cfgD` below.
* Nondeterministic inputs of one call to `obtener_bd` (the outcome of each
  lease-and-probe attempt, the `_now()` value at each failure, the jitter
  drawn by `random.uniform`, and whether the caller block raises at the
  `yield`) are packaged as a `RunInput`.
* A run returns the caller-visible result, the final breaker state, and the
  trace of resource events (session lease, liveness probe, close, sleep,
  yield), so resource-handling claims are claims about the trace.
-/

/-- Configuration constants read from the environment in db.py lines 43-46,
keeping the source names: `CB_FAILURE_THRESHOLD` (default 3), `CB_COOLDOWN`
(default 60, seconds, an int), `DB_RETRIES` (default 3), `DB_INITIAL_DELAY`
(default 0.2, seconds, a float). -/
structure Config where
  FAILURE_THRESHOLD : ℕ
  COOLDOWN_SECONDS : ℕ
  RETRIES : ℕ
  INITIAL_DELAY : ℚ
deriving DecidableEq

/-- Circuit-breaker state of db.py lines 69-70: `_cb_fail_count` starts at 0
and `_cb_open_until` starts at `0.0`, where `0.0` is the sentinel for a
closed breaker (no cooldown pending). -/
structure CBState where
  cb_fail_count : ℕ
  cb_open_until : ℚ
deriving DecidableEq

/-- `_circuit_is_open` (db.py line 75): `_now() < _cb_open_until`. -/
def circuit_is_open (now : ℚ) (s : CBState) : Bool :=
  decide (now < s.cb_open_until)

/-- `_record_failure` (db.py lines 78-86): increment `_cb_fail_count`; once it
reaches `FAILURE_THRESHOLD`, set `_cb_open_until = _now() + COOLDOWN_SECONDS`. -/
def record_failure (cfg : Config) (now : ℚ) (s : CBState) : CBState :=
  let n := s.cb_fail_count + 1
  if cfg.FAILURE_THRESHOLD ≤ n then
    ⟨n, now + (cfg.COOLDOWN_SECONDS : ℚ)⟩
  else
    ⟨n, s.cb_open_until⟩

/-- `_record_success` (db.py lines 88-94): reset both fields to zero. -/
def record_success (_s : CBState) : CBState := ⟨0, 0⟩

/-- Exception classes relevant to the two `except` clauses of `obtener_bd`.
In sqlalchemy, `OperationalError` derives from `DBAPIError`, which derives
from `StatementError` and `SQLAlchemyError`; the pool-exhaustion error
`sqlalchemy.exc.TimeoutError` ("raised when a connection pool times out on
getting a connection") derives directly from `SQLAlchemyError`, not from
`DBAPIError`. `otherError` stands for any other `Exception`. -/
inductive ExcKind
  | operationalError
  | dbapiError
  | poolTimeoutError
  | otherError
deriving DecidableEq

/-- `isinstance(e, (OperationalError, DBAPIError))`, the test performed by the
first `except` clause of `obtener_bd` (db.py line 154). The pool-timeout
class does not match it (see `ExcKind`). -/
def matches_connectivity : ExcKind → Bool
  | .operationalError => true
  | .dbapiError => true
  | .poolTimeoutError => false
  | .otherError => false

/-- Outcome of one lease-and-probe attempt: the probe
(`engine.connect(); SELECT 1`, db.py lines 142-143) either succeeds or
raises an exception of some class. -/
inductive ProbeOutcome
  | ok
  | raises (e : ExcKind)
deriving DecidableEq

/-- Whether an attempt outcome lands in the connectivity `except` clause. -/
def is_conn_fail : ProbeOutcome → Bool
  | .ok => false
  | .raises e => matches_connectivity e

/-- Resource events of one `obtener_bd` call, indexed by attempt number
(1-based, matching `intento`): `lease i` is `db = SessionLocal()`, `probe i`
the `engine.connect()` + `SELECT 1` liveness check, `close i` one invocation
of `db.close()` on attempt i's session, `sleep d` is `time.sleep(d)`, and
`yielded i` is `yield db`. -/
inductive Event
  | lease (i : ℕ)
  | probe (i : ℕ)
  | close (i : ℕ)
  | sleep (d : ℚ)
  | yielded (i : ℕ)
deriving DecidableEq

/-- Caller-visible result of one `obtener_bd` call: the generator either
completes normally after yielding a session, raises an `HTTPException` with
a status code and optional integer `Retry-After` header, or (only possible
when `RETRIES < 1`) falls off the end of the loop without yielding. -/
inductive GateResult
  | yielded
  | http (status : ℕ) (retryAfter : Option ℤ)
  | fellThrough
deriving DecidableEq

/-- Nondeterministic inputs of one `obtener_bd` call, per attempt number:
the probe outcome, the `_now()` timestamp at which a failure of that attempt
is recorded, the jitter drawn by `random.uniform(0, 0.25 * delay)`, and
whether the caller block raises a (non-connectivity) exception at the
`yield`. -/
structure RunInput where
  outcomes : ℕ → ProbeOutcome
  failTimes : ℕ → ℚ
  jitters : ℕ → ℚ
  callerRaises : Bool

/-- Python's builtin `round` (banker's rounding, halves to even) on a
rational, as used by `int(round(_cb_open_until - _now()))` in db.py line 131. -/
def pyRound (q : ℚ) : ℤ :=
  let f := ⌊q⌋
  let r := q - (f : ℚ)
  if r < 1/2 then f
  else if 1/2 < r then f + 1
  else if 2 ∣ f then f else f + 1

/-- The `for intento in range(1, RETRIES + 1)` loop of `obtener_bd`
(db.py lines 138-184). Arguments: current attempt number `i`, number of
attempts still allowed including the current one, current backoff `delay`,
and breaker state. Per iteration: lease a session, run the probe; on
success call `_record_success`, yield (closing the session in the `finally`,
and, if the caller block raises, closing it again in the generic `except`
clause which then raises HTTP 500); on a connectivity-class error close the
session, call `_record_failure`, and either sleep `delay + jitter` and retry
with `delay = min(delay * 2, 10.0)`, or, on the last attempt, raise HTTP 503
with `Retry-After = str(COOLDOWN_SECONDS)`; on any other error close the
session and raise HTTP 500. -/
def attemptLoop (cfg : Config) (inp : RunInput) :
    ℕ → ℕ → ℚ → CBState → GateResult × CBState × List Event
  | _, 0, _, s => (.fellThrough, s, [])
  | i, r + 1, delay, s =>
    match inp.outcomes i with
    | .ok =>
      if inp.callerRaises then
        (.http 500 none, record_success s,
          [.lease i, .probe i, .yielded i, .close i, .close i])
      else
        (.yielded, record_success s,
          [.lease i, .probe i, .yielded i, .close i])
    | .raises e =>
      if matches_connectivity e then
        let s' := record_failure cfg (inp.failTimes i) s
        if r = 0 then
          (.http 503 (some (cfg.COOLDOWN_SECONDS : ℤ)), s',
            [.lease i, .probe i, .close i])
        else
          let rest := attemptLoop cfg inp (i + 1) r (min (delay * 2) 10) s'
          (rest.1, rest.2.1,
            [.lease i, .probe i, .close i, .sleep (delay + inp.jitters i)]
              ++ rest.2.2)
      else
        (.http 500 none, s, [.lease i, .probe i, .close i])

/-- `obtener_bd` (db.py lines 121-184): if the breaker is open, immediately
raise HTTP 503 with `Retry-After = int(round(_cb_open_until - _now()))` and
no lease or probe; otherwise run the retry loop starting from attempt 1 with
`delay = INITIAL_DELAY`. -/
def obtener_bd (cfg : Config) (inp : RunInput) (t0 : ℚ) (s : CBState) :
    GateResult × CBState × List Event :=
  if circuit_is_open t0 s then
    (.http 503 (some (pyRound (s.cb_open_until - t0))), s, [])
  else
    attemptLoop cfg inp 1 cfg.RETRIES cfg.INITIAL_DELAY s

/-- The sequence of slept durations in a trace. -/
def sleeps (tr : List Event) : List ℚ :=
  tr.filterMap fun e =>
    match e with
    | .sleep d => some d
    | _ => none

/-- Closed form of the backoff value used at the k-th sleep (0-based) when
the loop starts with delay `d`: `capped d 0 = d`,
`capped d (k+1) = min (capped d k * 2) 10`. -/
def capped (d : ℚ) : ℕ → ℚ
  | 0 => d
  | k + 1 => min (capped d k * 2) 10

/-- Number of `lease j` events in a trace. -/
def lease_count (j : ℕ) (tr : List Event) : ℕ := tr.count (Event.lease j)

/-- Number of `close j` events in a trace. -/
def close_count (j : ℕ) (tr : List Event) : ℕ := tr.count (Event.close j)

/-- Whether an event is a session lease. -/
def is_lease : Event → Bool
  | .lease _ => true
  | _ => false

/-- Whether an event is a liveness-probe attempt. -/
def is_probe : Event → Bool
  | .probe _ => true
  | _ => false

/-- One step of breaker evolution, for reasoning about arbitrary interleaved
sequences of `_record_failure` / `_record_success` calls. -/
inductive CBOp
  | failure (t : ℚ)
  | success

/-- Apply one breaker operation. -/
def apply_op (cfg : Config) (s : CBState) : CBOp → CBState
  | .failure t => record_failure cfg t s
  | .success => record_success s

/-- Run a sequence of breaker operations from the initial state `{0, 0.0}`. -/
def run_ops (cfg : Config) (ops : List CBOp) : CBState :=
  ops.foldl (apply_op cfg) ⟨0, 0⟩

/-- The module-default configuration of db.py lines 43-46. -/
def cfgD : Config := ⟨3, 60, 3, 1/5⟩

/-- Input where every probe raises `OperationalError`, failures are recorded
at time 0, jitters are 0, and the caller block does not raise. -/
def allConnFail : RunInput :=
  ⟨fun _ => .raises .operationalError, fun _ => 0, fun _ => 0, false⟩

/-- Input where every probe succeeds and the caller block returns normally. -/
def allOk : RunInput := ⟨fun _ => .ok, fun _ => 0, fun _ => 0, false⟩

/-- Input where every probe raises the pool-exhaustion class
`sqlalchemy.exc.TimeoutError`. -/
def allPoolTimeout : RunInput :=
  ⟨fun _ => .raises .poolTimeoutError, fun _ => 0, fun _ => 0, false⟩

/-- Input where the first probe succeeds but the caller block raises a
(non-connectivity) exception at the `yield`. -/
def okCallerRaises : RunInput := ⟨fun _ => .ok, fun _ => 0, fun _ => 0, true⟩

/-! ## Equation lemmas for the retry loop, one per branch of the source. -/

/-- Empty loop (`RETRIES < 1`): the generator body falls through. -/
lemma attemptLoop_zero (cfg : Config) (inp : RunInput) (i : ℕ) (d : ℚ)
    (s : CBState) : attemptLoop cfg inp i 0 d s = (.fellThrough, s, []) := rfl

/-- Successful probe, caller block returns normally. -/
lemma attemptLoop_ok (cfg : Config) (inp : RunInput) (i r : ℕ) (d : ℚ)
    (s : CBState) (h : inp.outcomes i = .ok) (hc : inp.callerRaises = false) :
    attemptLoop cfg inp i (r + 1) d s
      = (.yielded, ⟨0, 0⟩, [.lease i, .probe i, .yielded i, .close i]) := by
  simp [attemptLoop, h, hc, record_success]

/-- Successful probe, caller block raises at the `yield`: the session is
closed by the `finally` and again by the generic `except` clause, which then
raises HTTP 500; the breaker stays reset. -/
lemma attemptLoop_ok_caller (cfg : Config) (inp : RunInput) (i r : ℕ) (d : ℚ)
    (s : CBState) (h : inp.outcomes i = .ok) (hc : inp.callerRaises = true) :
    attemptLoop cfg inp i (r + 1) d s
      = (.http 500 none, ⟨0, 0⟩,
          [.lease i, .probe i, .yielded i, .close i, .close i]) := by
  simp [attemptLoop, h, hc, record_success]

/-- Connectivity-class failure on the final attempt: HTTP 503 with
`Retry-After = COOLDOWN_SECONDS`. -/
lemma attemptLoop_conn_last (cfg : Config) (inp : RunInput) (i : ℕ) (d : ℚ)
    (s : CBState) (e : ExcKind) (h : inp.outcomes i = .raises e)
    (hm : matches_connectivity e = true) :
    attemptLoop cfg inp i 1 d s
      = (.http 503 (some (cfg.COOLDOWN_SECONDS : ℤ)),
          record_failure cfg (inp.failTimes i) s,
          [.lease i, .probe i, .close i]) := by
  simp [attemptLoop, h, hm]

/-- Connectivity-class failure with attempts remaining: record the failure,
sleep `delay + jitter`, double-and-cap the delay, continue. -/
lemma attemptLoop_conn_retry (cfg : Config) (inp : RunInput) (i r : ℕ)
    (d : ℚ) (s : CBState) (e : ExcKind) (h : inp.outcomes i = .raises e)
    (hm : matches_connectivity e = true) :
    attemptLoop cfg inp i (r + 2) d s
      = ((attemptLoop cfg inp (i + 1) (r + 1) (min (d * 2) 10)
            (record_failure cfg (inp.failTimes i) s)).1,
         (attemptLoop cfg inp (i + 1) (r + 1) (min (d * 2) 10)
            (record_failure cfg (inp.failTimes i) s)).2.1,
         [.lease i, .probe i, .close i, .sleep (d + inp.jitters i)]
           ++ (attemptLoop cfg inp (i + 1) (r + 1) (min (d * 2) 10)
                (record_failure cfg (inp.failTimes i) s)).2.2) := by
  simp [attemptLoop, h, hm]

/-- Non-connectivity failure: close the session, raise HTTP 500, leave the
breaker state untouched, make no further attempt. -/
lemma attemptLoop_nonconn (cfg : Config) (inp : RunInput) (i r : ℕ) (d : ℚ)
    (s : CBState) (e : ExcKind) (h : inp.outcomes i = .raises e)
    (hm : matches_connectivity e = false) :
    attemptLoop cfg inp i (r + 1) d s
      = (.http 500 none, s, [.lease i, .probe i, .close i]) := by
  simp [attemptLoop, h, hm]

/-- When the breaker gate passes (`now ≥ open_until`), `obtener_bd` is the
retry loop from attempt 1. -/
lemma obtener_bd_gate_pass (cfg : Config) (inp : RunInput) (t0 : ℚ)
    (s : CBState) (hgate : s.cb_open_until ≤ t0) :
    obtener_bd cfg inp t0 s
      = attemptLoop cfg inp 1 cfg.RETRIES cfg.INITIAL_DELAY s := by
  have h : circuit_is_open t0 s = false := by
    simp [circuit_is_open, not_lt.mpr hgate]
  simp [obtener_bd, h]

/-- When the breaker is open (`now < open_until`), `obtener_bd` rejects
immediately: empty trace, unchanged state, HTTP 503 with the rounded
remaining cooldown. -/
lemma obtener_bd_gate_open (cfg : Config) (inp : RunInput) (t0 : ℚ)
    (s : CBState) (hopen : t0 < s.cb_open_until) :
    obtener_bd cfg inp t0 s
      = (.http 503 (some (pyRound (s.cb_open_until - t0))), s, []) := by
  have h : circuit_is_open t0 s = true := by simp [circuit_is_open, hopen]
  simp [obtener_bd, h]

/-- Destructor for the hypothesis that every attempt fails with a
connectivity-class exception. -/
lemma conn_of {inp : RunInput}
    (hf : ∀ i, is_conn_fail (inp.outcomes i) = true) (i : ℕ) :
    ∃ e, inp.outcomes i = .raises e ∧ matches_connectivity e = true := by
  have h := hf i
  cases ho : inp.outcomes i with
  | ok => rw [ho] at h; simp [is_conn_fail] at h
  | raises e => rw [ho] at h; exact ⟨e, rfl, h⟩

/-- Every nonempty round of the loop begins by leasing and probing. -/
lemma attemptLoop_cons (cfg : Config) (inp : RunInput) (i r : ℕ) (d : ℚ)
    (s : CBState) :
    ∃ rest, (attemptLoop cfg inp i (r + 1) d s).2.2
      = Event.lease i :: Event.probe i :: rest := by
  cases ho : inp.outcomes i with
  | ok =>
    cases hc : inp.callerRaises with
    | false => rw [attemptLoop_ok cfg inp i r d s ho hc]; exact ⟨_, rfl⟩
    | true => rw [attemptLoop_ok_caller cfg inp i r d s ho hc]; exact ⟨_, rfl⟩
  | raises e =>
    cases hm : matches_connectivity e with
    | false => rw [attemptLoop_nonconn cfg inp i r d s e ho hm]; exact ⟨_, rfl⟩
    | true =>
      cases r with
      | zero => rw [attemptLoop_conn_last cfg inp i d s e ho hm]; exact ⟨_, rfl⟩
      | succ r =>
        rw [attemptLoop_conn_retry cfg inp i r d s e ho hm]
        exact ⟨_, rfl⟩

/-! ## Characterization of all-connectivity-failure runs. -/

/-- In a run whose every attempt fails with a connectivity-class error, the
loop raises HTTP 503 with `Retry-After = COOLDOWN_SECONDS` and the trace
holds exactly one lease and one probe per allowed attempt. -/
lemma allfail_result_counts (cfg : Config) (inp : RunInput)
    (hf : ∀ i, is_conn_fail (inp.outcomes i) = true) :
    ∀ r i d s,
      (attemptLoop cfg inp i (r + 1) d s).1
          = .http 503 (some (cfg.COOLDOWN_SECONDS : ℤ))
      ∧ ((attemptLoop cfg inp i (r + 1) d s).2.2.countP is_lease = r + 1
      ∧ (attemptLoop cfg inp i (r + 1) d s).2.2.countP is_probe = r + 1) := by
  intro r
  induction r with
  | zero =>
    intro i d s
    obtain ⟨e, ho, hm⟩ := conn_of hf i
    rw [attemptLoop_conn_last cfg inp i d s e ho hm]
    refine ⟨rfl, ?_, ?_⟩ <;>
      simp [List.countP_cons, is_lease, is_probe]
  | succ r ih =>
    intro i d s
    obtain ⟨e, ho, hm⟩ := conn_of hf i
    rw [attemptLoop_conn_retry cfg inp i r d s e ho hm]
    obtain ⟨h1, h2, h3⟩ :=
      ih (i + 1) (min (d * 2) 10) (record_failure cfg (inp.failTimes i) s)
    refine ⟨h1, ?_, ?_⟩ <;>
      simp [List.countP_append, List.countP_cons, is_lease, is_probe, h2, h3]

/-- Shifting the start of the capped-doubling sequence by one step. -/
lemma capped_shift (d : ℚ) : ∀ m, capped d (m + 1) = capped (min (d * 2) 10) m
  | 0 => rfl
  | m + 1 => by
    have h : capped d (m + 1 + 1) = min (capped d (m + 1) * 2) 10 := rfl
    rw [h, capped_shift d m]; rfl

/-- Closed form of the capped-doubling sequence below the ceiling: when the
initial delay is at most 10, the k-th backoff is `min (d * 2 ^ k) 10`. -/
lemma capped_eq_min (d : ℚ) (hd : d ≤ 10) :
    ∀ k, capped d k = min (d * 2 ^ k) 10
  | 0 => by simp [capped, min_eq_left hd]
  | k + 1 => by
    have hk := capped_eq_min d hd k
    have h : capped d (k + 1) = min (capped d k * 2) 10 := rfl
    rw [h, hk]
    rcases le_total (d * 2 ^ k) 10 with hle | hle
    · rw [min_eq_left hle]
      have : d * 2 ^ (k + 1) = d * 2 ^ k * 2 := by ring
      rw [this]
    · rw [min_eq_right hle]
      have h1 : (10 : ℚ) ≤ d * 2 ^ (k + 1) := by
        have h2 : d * 2 ^ (k + 1) = d * 2 ^ k * 2 := by ring
        rw [h2]; linarith
      rw [min_eq_right h1, min_eq_right (by norm_num : (10 : ℚ) ≤ 10 * 2)]

/-- In an all-connectivity-failure run, the slept durations are exactly the
capped-doubling backoffs plus the per-attempt jitters, in order. -/
lemma allfail_sleeps (cfg : Config) (inp : RunInput)
    (hf : ∀ i, is_conn_fail (inp.outcomes i) = true) :
    ∀ r i d s,
      sleeps (attemptLoop cfg inp i (r + 1) d s).2.2
        = (List.range r).map fun m => capped d m + inp.jitters (i + m) := by
  intro r
  induction r with
  | zero =>
    intro i d s
    obtain ⟨e, ho, hm⟩ := conn_of hf i
    rw [attemptLoop_conn_last cfg inp i d s e ho hm]
    simp [sleeps]
  | succ r ih =>
    intro i d s
    obtain ⟨e, ho, hm⟩ := conn_of hf i
    rw [attemptLoop_conn_retry cfg inp i r d s e ho hm]
    have hrec := ih (i + 1) (min (d * 2) 10) (record_failure cfg (inp.failTimes i) s)
    simp only [sleeps, List.filterMap_append, List.filterMap_cons,
      List.filterMap_nil, List.nil_append] at hrec ⊢
    rw [hrec, List.range_succ_eq_map]
    simp only [List.map_cons, List.map_map]
    refine congrArg₂ List.cons ?_ ?_
    · simp [capped]
    · refine List.map_congr_left ?_
      intro m _
      simp only [Function.comp_apply]
      rw [capped_shift d m]
      have h : i + (m + 1) = i + 1 + m := by omega
      rw [h]

/-! ## Per-session lease/close accounting. -/

/-- Per attempt index: at most one lease, every leased session closed at
least once and at most twice, indices below the starting attempt untouched,
and, when the caller block does not raise, closes equal leases exactly. -/
lemma close_lease_loop (cfg : Config) (inp : RunInput) :
    ∀ r i d s j,
      lease_count j (attemptLoop cfg inp i r d s).2.2 ≤ 1
      ∧ ((j < i → lease_count j (attemptLoop cfg inp i r d s).2.2 = 0
            ∧ close_count j (attemptLoop cfg inp i r d s).2.2 = 0)
      ∧ (lease_count j (attemptLoop cfg inp i r d s).2.2
          ≤ close_count j (attemptLoop cfg inp i r d s).2.2
      ∧ (close_count j (attemptLoop cfg inp i r d s).2.2
          ≤ 2 * lease_count j (attemptLoop cfg inp i r d s).2.2
      ∧ (inp.callerRaises = false →
          close_count j (attemptLoop cfg inp i r d s).2.2
            = lease_count j (attemptLoop cfg inp i r d s).2.2)))) := by
  intro r
  induction r with
  | zero =>
    intro i d s j
    rw [attemptLoop_zero]
    simp [lease_count, close_count]
  | succ r ih =>
    intro i d s j
    cases ho : inp.outcomes i with
    | ok =>
      cases hc : inp.callerRaises with
      | false =>
        rw [attemptLoop_ok cfg inp i r d s ho hc]
        by_cases hj : j = i <;>
          simp [lease_count, close_count, List.count_cons, hj, hc]
      | true =>
        rw [attemptLoop_ok_caller cfg inp i r d s ho hc]
        by_cases hj : j = i <;>
          simp [lease_count, close_count, List.count_cons, hj, hc]
    | raises e =>
      cases hm : matches_connectivity e with
      | false =>
        rw [attemptLoop_nonconn cfg inp i r d s e ho hm]
        by_cases hj : j = i <;>
          simp [lease_count, close_count, List.count_cons, hj]
      | true =>
        cases r with
        | zero =>
          rw [attemptLoop_conn_last cfg inp i d s e ho hm]
          by_cases hj : j = i <;>
            simp [lease_count, close_count, List.count_cons, hj]
        | succ r =>
          rw [attemptLoop_conn_retry cfg inp i r d s e ho hm]
          obtain ⟨b1, b2, b3, b4, b5⟩ :=
            ih (i + 1) (min (d * 2) 10) (record_failure cfg (inp.failTimes i) s) j
          by_cases hj : j = i
          · obtain ⟨hz1, hz2⟩ := b2 (by omega)
            simp only [lease_count, close_count, List.count_append,
              List.count_cons, List.count_nil] at hz1 hz2 ⊢
            subst hj
            simp [hz1, hz2]
          · simp only [lease_count, close_count, List.count_append,
              List.count_cons, List.count_nil] at b1 b2 b3 b4 b5 ⊢
            have hne : ¬ (Event.lease i = Event.lease j) := by
              simp [Event.lease.injEq]; omega
            have hne2 : ¬ (Event.close i = Event.close j) := by
              simp [Event.close.injEq]; omega
            constructor
            · simp only [beq_iff_eq]
              simp [hne, hne2]
              omega
            constructor
            · intro hji
              obtain ⟨hz1, hz2⟩ := b2 (by omega)
              simp only [beq_iff_eq] at hz1 hz2 ⊢
              simp [hne, hne2, hz1, hz2]
            constructor
            · simp only [beq_iff_eq] at b3 ⊢
              simp [hne, hne2]
              omega
            constructor
            · simp only [beq_iff_eq] at b4 ⊢
              simp [hne, hne2]
              omega
            · intro hcal
              have := b5 hcal
              simp only [beq_iff_eq] at this ⊢
              simp [hne, hne2]
              omega

/-! ## Auxiliary facts for individual claims. -/

/-- The breaker invariant is preserved by any suffix of operations whose
failure timestamps are nonnegative, starting from any state satisfying it. -/
lemma run_ops_invariant_aux (cfg : Config)
    (hth : 1 ≤ cfg.FAILURE_THRESHOLD) (hcd : 1 ≤ cfg.COOLDOWN_SECONDS) :
    ∀ ops : List CBOp, ∀ s : CBState,
      (∀ t : ℚ, CBOp.failure t ∈ ops → 0 ≤ t) →
      (s.cb_open_until ≠ 0 ↔ cfg.FAILURE_THRESHOLD ≤ s.cb_fail_count) →
      ((ops.foldl (apply_op cfg) s).cb_open_until ≠ 0
        ↔ cfg.FAILURE_THRESHOLD ≤ (ops.foldl (apply_op cfg) s).cb_fail_count)
  | [], s, _, hinv => hinv
  | op :: ops, s, htimes, hinv => by
    rw [List.foldl_cons]
    refine run_ops_invariant_aux cfg hth hcd ops (apply_op cfg s op)
      (fun t htm => htimes t (List.mem_cons_of_mem op htm)) ?_
    cases op with
    | success =>
      simp only [apply_op, record_success]
      constructor
      · intro h; exact absurd rfl h
      · intro h; omega
    | failure t =>
      have ht : 0 ≤ t := htimes t (List.mem_cons_self _ _)
      by_cases hc : cfg.FAILURE_THRESHOLD ≤ s.cb_fail_count + 1
      · simp only [apply_op, record_failure, if_pos hc]
        have hpos : (0 : ℚ) < t + (cfg.COOLDOWN_SECONDS : ℚ) := by
          have h1 : (1 : ℚ) ≤ (cfg.COOLDOWN_SECONDS : ℚ) := by
            exact_mod_cast hcd
          linarith
        exact ⟨fun _ => hc, fun _ => ne_of_gt hpos⟩
      · simp only [apply_op, record_failure, if_neg hc]
        constructor
        · intro h
          exact absurd (hinv.mp h) (fun hle => hc (by omega))
        · intro h; exact absurd h hc

/-- Shared 500-path lemma: with the gate passed and the first probe raising
an exception outside the connectivity classes, the call closes the session,
raises HTTP 500, leaves the breaker state untouched and stops. -/
lemma first_attempt_non_conn_500 (cfg : Config) (inp : RunInput) (t0 : ℚ)
    (s : CBState) (e : ExcKind) (hgate : s.cb_open_until ≤ t0)
    (hr : 1 ≤ cfg.RETRIES) (he : inp.outcomes 1 = .raises e)
    (hm : matches_connectivity e = false) :
    obtener_bd cfg inp t0 s
      = (.http 500 none, s, [.lease 1, .probe 1, .close 1]) := by
  rw [obtener_bd_gate_pass cfg inp t0 s hgate]
  obtain ⟨r, hr'⟩ : ∃ r, cfg.RETRIES = r + 1 := ⟨cfg.RETRIES - 1, by omega⟩
  rw [hr']
  exact attemptLoop_nonconn cfg inp 1 r cfg.INITIAL_DELAY s e he hm

/-! ## Claim theorems. -/

/-- C1 (counterexample): with the default configuration, a breaker state
reached by a third consecutive failure recorded at time 0 (so
`open_until = 60`), and a call at time `t0 = 2/5`, `obtener_bd` raises
HTTP 503 whose `Retry-After` is the integer 60, while the remaining breaker
cooldown is `60 - 2/5 = 59.6`; the header value is not equal to the
remaining cooldown, refuting the claim as stated. -/
theorem retry_after_not_exact_remaining :
    record_failure cfgD 0 ⟨2, 0⟩ = ⟨3, 60⟩
    ∧ obtener_bd cfgD allConnFail (2/5) ⟨3, 60⟩
        = (.http 503 (some 60), ⟨3, 60⟩, [])
    ∧ ¬ (((60 : ℤ) : ℚ) = (⟨3, 60⟩ : CBState).cb_open_until - 2/5) := by
  refine ⟨by norm_num [record_failure, cfgD], ?_, by norm_num⟩
  norm_num [obtener_bd, circuit_is_open, cfgD, pyRound, Int.floor_eq_iff]

/-- C1 (amended): for every breaker state in which the most recent
connectivity failure brought `consecutive_failures` to at least
`CB_FAILURE_THRESHOLD` (setting `open_until = failure time + CB_COOLDOWN`),
every call to `obtener_bd` made strictly before `open_until` raises HTTP 503
carrying a `Retry-After` equal to the remaining breaker cooldown rounded to
the nearest whole second (Python `round`), leaves the breaker state
unchanged, and performs no connection lease or liveness-probe attempt
(empty event trace). -/
theorem breaker_open_rejects_with_rounded_retry_after
    (cfg : Config) (inp : RunInput) (t0 tf : ℚ) (s0 : CBState)
    (hth : cfg.FAILURE_THRESHOLD ≤ s0.cb_fail_count + 1)
    (hopen : t0 < (record_failure cfg tf s0).cb_open_until) :
    obtener_bd cfg inp t0 (record_failure cfg tf s0)
      = (.http 503 (some (pyRound
            ((record_failure cfg tf s0).cb_open_until - t0))),
         record_failure cfg tf s0, [])
    ∧ (record_failure cfg tf s0).cb_open_until
        = tf + (cfg.COOLDOWN_SECONDS : ℚ) := by
  refine ⟨obtener_bd_gate_open cfg inp t0 _ hopen, ?_⟩
  simp [record_failure, hth]

/-- Witness for C1 (amended) at the default configuration: third failure at
time 0, call at time 2/5, rounded remaining cooldown 60. -/
theorem breaker_open_rejects_with_rounded_retry_after_witness :
    (obtener_bd cfgD allConnFail (2/5) (record_failure cfgD 0 ⟨2, 0⟩)
      = (.http 503 (some (pyRound
            ((record_failure cfgD 0 ⟨2, 0⟩).cb_open_until - 2/5))),
         record_failure cfgD 0 ⟨2, 0⟩, [])
    ∧ (record_failure cfgD 0 ⟨2, 0⟩).cb_open_until
        = 0 + (cfgD.COOLDOWN_SECONDS : ℚ))
    ∧ pyRound ((record_failure cfgD 0 ⟨2, 0⟩).cb_open_until - 2/5) = 60 :=
  ⟨breaker_open_rejects_with_rounded_retry_after cfgD allConnFail (2/5) 0
      ⟨2, 0⟩ (by norm_num [cfgD]) (by norm_num [record_failure, cfgD]),
   by norm_num [record_failure, cfgD, pyRound, Int.floor_eq_iff]⟩

/-- C2: starting from the initial breaker state, after every finite sequence
of `_record_failure` / `_record_success` operations (with nonnegative
monotonic timestamps, a positive threshold and a positive cooldown),
`open_until` is set (nonzero) if and only if
`consecutive_failures ≥ CB_FAILURE_THRESHOLD`; and `_record_success` always
restores the state to `{0, none}`. -/
theorem breaker_invariant_open_iff_threshold (cfg : Config) (ops : List CBOp)
    (hth : 1 ≤ cfg.FAILURE_THRESHOLD) (hcd : 1 ≤ cfg.COOLDOWN_SECONDS)
    (htimes : ∀ t : ℚ, CBOp.failure t ∈ ops → 0 ≤ t) :
    ((run_ops cfg ops).cb_open_until ≠ 0
      ↔ cfg.FAILURE_THRESHOLD ≤ (run_ops cfg ops).cb_fail_count)
    ∧ ∀ s : CBState, record_success s = ⟨0, 0⟩ := by
  refine ⟨?_, fun s => rfl⟩
  refine run_ops_invariant_aux cfg hth hcd ops ⟨0, 0⟩ htimes ?_
  constructor
  · intro h; exact absurd rfl h
  · intro h
    have hc0 : (⟨0, 0⟩ : CBState).cb_fail_count = 0 := rfl
    rw [hc0] at h
    exact absurd h (by omega)

/-- Witness for C2 at the default configuration: three failures at time 0
open the breaker and the invariant holds at the resulting state. -/
theorem breaker_invariant_open_iff_threshold_witness :
    ((run_ops cfgD [CBOp.failure 0, CBOp.failure 0, CBOp.failure 0]).cb_open_until ≠ 0
      ↔ cfgD.FAILURE_THRESHOLD
          ≤ (run_ops cfgD [CBOp.failure 0, CBOp.failure 0, CBOp.failure 0]).cb_fail_count)
    ∧ ∀ s : CBState, record_success s = ⟨0, 0⟩ :=
  breaker_invariant_open_iff_threshold cfgD _ (by norm_num [cfgD])
    (by norm_num [cfgD])
    (by
      intro t htm
      simp only [List.mem_cons, List.not_mem_nil, or_false,
        CBOp.failure.injEq] at htm
      rcases htm with h | h | h <;> subst h <;> norm_num)

/-- C3: whenever a call is made at a time at which the cooldown has elapsed
(`now ≥ open_until`), `obtener_bd` does not short-circuit: its trace begins
with a session lease and a liveness probe for attempt 1, for every prior
failure count and every outcome pattern. -/
theorem cooldown_elapsed_proceeds_to_attempt (cfg : Config) (inp : RunInput)
    (t0 : ℚ) (s : CBState) (hgate : s.cb_open_until ≤ t0)
    (hr : 1 ≤ cfg.RETRIES) :
    ∃ rest, (obtener_bd cfg inp t0 s).2.2
      = Event.lease 1 :: Event.probe 1 :: rest := by
  rw [obtener_bd_gate_pass cfg inp t0 s hgate]
  obtain ⟨r, hr'⟩ : ∃ r, cfg.RETRIES = r + 1 := ⟨cfg.RETRIES - 1, by omega⟩
  rw [hr']
  exact attemptLoop_cons cfg inp 1 r cfg.INITIAL_DELAY s

/-- Witness for C3: after the cooldown has elapsed (state open until 60,
call at time 60), even with a large failure count the call leases and
probes. -/
theorem cooldown_elapsed_proceeds_to_attempt_witness :
    ∃ rest, (obtener_bd cfgD allConnFail 60 ⟨99, 60⟩).2.2
      = Event.lease 1 :: Event.probe 1 :: rest :=
  cooldown_elapsed_proceeds_to_attempt cfgD allConnFail 60 ⟨99, 60⟩
    (by norm_num) (by norm_num [cfgD])

/-- C4: for every prior breaker state (with the gate passed), a successful
liveness probe on the first attempt resets the breaker to `{0, none}`,
yields the verified session to the caller, closes it exactly once on block
exit, and makes no further attempts: the run is exactly
lease-probe-yield-close. -/
theorem success_resets_and_yields (cfg : Config) (inp : RunInput) (t0 : ℚ)
    (s : CBState) (hgate : s.cb_open_until ≤ t0) (hr : 1 ≤ cfg.RETRIES)
    (hok : inp.outcomes 1 = .ok) (hc : inp.callerRaises = false) :
    obtener_bd cfg inp t0 s
      = (.yielded, ⟨0, 0⟩,
          [.lease 1, .probe 1, .yielded 1, .close 1]) := by
  rw [obtener_bd_gate_pass cfg inp t0 s hgate]
  obtain ⟨r, hr'⟩ : ∃ r, cfg.RETRIES = r + 1 := ⟨cfg.RETRIES - 1, by omega⟩
  rw [hr']
  exact attemptLoop_ok cfg inp 1 r cfg.INITIAL_DELAY s hok hc

/-- Witness for C4 from a prior state with 99 recorded failures and an
expired cooldown. -/
theorem success_resets_and_yields_witness :
    obtener_bd cfgD allOk 0 ⟨99, 0⟩
      = (.yielded, ⟨0, 0⟩, [.lease 1, .probe 1, .yielded 1, .close 1]) :=
  success_resets_and_yields cfgD allOk 0 ⟨99, 0⟩ (by norm_num)
    (by norm_num [cfgD]) rfl rfl

/-- A configuration differing from the defaults only in `DB_RETRIES = 8`
(settable through the environment), used to exercise the capped region of
the backoff. -/
def cfg8 : Config := ⟨3, 60, 8, 1/5⟩

/-- All-connectivity-failure input whose seventh jitter draw is 12/5, inside
the legal range `[0, 0.25 * delay]` for the capped delay 10. -/
def inpC5 : RunInput :=
  ⟨fun _ => .raises .operationalError, fun _ => 0,
   fun i => if i = 7 then 12/5 else 0, false⟩

/-- C5 (counterexample): with `DB_RETRIES = 8` and the default
`INITIAL_DELAY = 0.2`, in the all-connectivity-failure run with legal
jitters, the delay slept before attempt 8 (the 7th sleep) is `62/5 = 12.4`:
it is smaller than `INITIAL_DELAY * 2 ^ 6 = 12.8` and larger than the 10.0
ceiling, refuting both stated bounds — the 10.0 cap applies to the base
delay before jitter is added, not to the slept total. -/
theorem sleep_can_exceed_ceiling :
    (0 ≤ inpC5.jitters 7
      ∧ inpC5.jitters 7 ≤ min (cfg8.INITIAL_DELAY * 2 ^ 6) 10 / 4)
    ∧ sleeps (obtener_bd cfg8 inpC5 0 ⟨0, 0⟩).2.2
        = [1/5, 2/5, 4/5, 8/5, 16/5, 32/5, 62/5]
    ∧ ¬ (cfg8.INITIAL_DELAY * 2 ^ 6 ≤ (62/5 : ℚ) ∧ (62/5 : ℚ) ≤ 10) := by
  refine ⟨⟨by norm_num [inpC5], by norm_num [inpC5, cfg8]⟩, ?_,
    by norm_num [cfg8]⟩
  norm_num [obtener_bd, circuit_is_open, cfg8, inpC5, attemptLoop,
    record_failure, matches_connectivity, sleeps, List.filterMap_cons]

/-- C5 (amended): in every all-connectivity-failure run of the retry loop
(gate passed, `INITIAL_DELAY ≤ 10`), for every failed attempt `k` with
`1 ≤ k < RETRIES` and every jitter in its range, the delay slept before
attempt `k+1` equals `min (INITIAL_DELAY * 2 ^ (k-1)) 10` plus the jitter,
hence lies between `min (INITIAL_DELAY * 2 ^ (k-1)) 10` and `5/4` times that
capped base delay. -/
theorem backoff_bounds_capped (cfg : Config) (inp : RunInput) (t0 : ℚ)
    (s : CBState) (hgate : s.cb_open_until ≤ t0)
    (hf : ∀ i, is_conn_fail (inp.outcomes i) = true)
    (hd10 : cfg.INITIAL_DELAY ≤ 10) (k : ℕ) (hk1 : 1 ≤ k)
    (hkr : k < cfg.RETRIES) (hj0 : 0 ≤ inp.jitters k)
    (hj1 : inp.jitters k ≤ min (cfg.INITIAL_DELAY * 2 ^ (k - 1)) 10 / 4) :
    (sleeps (obtener_bd cfg inp t0 s).2.2)[k - 1]?
        = some (min (cfg.INITIAL_DELAY * 2 ^ (k - 1)) 10 + inp.jitters k)
    ∧ min (cfg.INITIAL_DELAY * 2 ^ (k - 1)) 10
        ≤ min (cfg.INITIAL_DELAY * 2 ^ (k - 1)) 10 + inp.jitters k
    ∧ min (cfg.INITIAL_DELAY * 2 ^ (k - 1)) 10 + inp.jitters k
        ≤ 5/4 * min (cfg.INITIAL_DELAY * 2 ^ (k - 1)) 10 := by
  rw [obtener_bd_gate_pass cfg inp t0 s hgate]
  obtain ⟨r, hr'⟩ : ∃ r, cfg.RETRIES = r + 1 := ⟨cfg.RETRIES - 1, by omega⟩
  rw [hr']
  rw [allfail_sleeps cfg inp hf r 1 cfg.INITIAL_DELAY s]
  have hk : k - 1 < r := by omega
  rw [List.getElem?_map, List.getElem?_range hk]
  refine ⟨?_, by linarith, by linarith⟩
  simp only [Option.map_some']
  rw [capped_eq_min cfg.INITIAL_DELAY hd10 (k - 1)]
  have h1 : 1 + (k - 1) = k := by omega
  rw [h1]

/-- Witness for C5 (amended) at the default configuration, `k = 1`: the
first sleep is the initial delay 1/5 plus the zero jitter. -/
theorem backoff_bounds_capped_witness :
    (sleeps (obtener_bd cfgD allConnFail 0 ⟨0, 0⟩).2.2)[(0 : ℕ)]?
        = some (min (cfgD.INITIAL_DELAY * 2 ^ 0) 10 + allConnFail.jitters 1)
    ∧ min (cfgD.INITIAL_DELAY * 2 ^ 0) 10
        ≤ min (cfgD.INITIAL_DELAY * 2 ^ 0) 10 + allConnFail.jitters 1
    ∧ min (cfgD.INITIAL_DELAY * 2 ^ 0) 10 + allConnFail.jitters 1
        ≤ 5/4 * min (cfgD.INITIAL_DELAY * 2 ^ 0) 10 :=
  backoff_bounds_capped cfgD allConnFail 0 ⟨0, 0⟩ (by norm_num)
    (fun i => rfl) (by norm_num [cfgD]) 1 le_rfl (by norm_num [cfgD])
    (by norm_num [allConnFail]) (by norm_num [allConnFail, cfgD])

/-- C6: if the first liveness probe raises an exception outside the
connectivity classes (`OperationalError`/`DBAPIError`), the call discards
the leased session, raises HTTP 500 (not 503), makes no further attempts,
and leaves the breaker state exactly unchanged, for every prior state. -/
theorem non_connectivity_error_500_breaker_unchanged (cfg : Config)
    (inp : RunInput) (t0 : ℚ) (s : CBState) (e : ExcKind)
    (hgate : s.cb_open_until ≤ t0) (hr : 1 ≤ cfg.RETRIES)
    (he : inp.outcomes 1 = .raises e)
    (hm : matches_connectivity e = false) :
    obtener_bd cfg inp t0 s
      = (.http 500 none, s, [.lease 1, .probe 1, .close 1]) :=
  first_attempt_non_conn_500 cfg inp t0 s e hgate hr he hm

/-- Input where every probe raises a generic non-connectivity exception. -/
def allOther : RunInput :=
  ⟨fun _ => .raises .otherError, fun _ => 0, fun _ => 0, false⟩

/-- Witness for C6 from a prior state with two recorded failures: the state
is preserved bit for bit. -/
theorem non_connectivity_error_500_breaker_unchanged_witness :
    obtener_bd cfgD allOther 0 ⟨2, 0⟩
      = (.http 500 none, ⟨2, 0⟩, [.lease 1, .probe 1, .close 1]) :=
  non_connectivity_error_500_breaker_unchanged cfgD allOther 0 ⟨2, 0⟩
    .otherError (by norm_num) (by norm_num [cfgD]) rfl rfl

/-- C7 (counterexample): pool exhaustion (`sqlalchemy.exc.TimeoutError`) is
not an `OperationalError`/`DBAPIError`, so a run whose probes all raise it
ends after one attempt with HTTP 500, no sleep, an unchanged failure
counter, and a result different from the 503-with-cooldown the claim
predicts. -/
theorem pool_timeout_not_connectivity_path :
    obtener_bd cfgD allPoolTimeout 0 ⟨0, 0⟩
      = (.http 500 none, ⟨0, 0⟩, [.lease 1, .probe 1, .close 1])
    ∧ (obtener_bd cfgD allPoolTimeout 0 ⟨0, 0⟩).1
        ≠ .http 503 (some (cfgD.COOLDOWN_SECONDS : ℤ))
    ∧ (obtener_bd cfgD allPoolTimeout 0 ⟨0, 0⟩).2.1
        ≠ record_failure cfgD 0 ⟨0, 0⟩ := by
  have h : obtener_bd cfgD allPoolTimeout 0 ⟨0, 0⟩
      = (.http 500 none, ⟨0, 0⟩, [.lease 1, .probe 1, .close 1]) := by
    norm_num [obtener_bd, circuit_is_open, cfgD, allPoolTimeout, attemptLoop,
      matches_connectivity]
  refine ⟨h, ?_, ?_⟩ <;> rw [h] <;>
    norm_num [record_failure, cfgD, CBState.mk.injEq]

/-- C7 (amended): a pool-exhaustion failure on the first attempt is handled
by the generic `except` clause, not the connectivity clause: the session is
discarded, HTTP 500 (InternalError) is raised immediately with no retry, and
the breaker state is left exactly unchanged. -/
theorem pool_timeout_yields_internal_error (cfg : Config) (inp : RunInput)
    (t0 : ℚ) (s : CBState) (hgate : s.cb_open_until ≤ t0)
    (hr : 1 ≤ cfg.RETRIES)
    (he : inp.outcomes 1 = .raises .poolTimeoutError) :
    obtener_bd cfg inp t0 s
      = (.http 500 none, s, [.lease 1, .probe 1, .close 1]) :=
  first_attempt_non_conn_500 cfg inp t0 s .poolTimeoutError hgate hr he rfl

/-- Witness for C7 (amended) from a prior state with two recorded
failures. -/
theorem pool_timeout_yields_internal_error_witness :
    obtener_bd cfgD allPoolTimeout 0 ⟨2, 0⟩
      = (.http 500 none, ⟨2, 0⟩, [.lease 1, .probe 1, .close 1]) :=
  pool_timeout_yields_internal_error cfgD allPoolTimeout 0 ⟨2, 0⟩
    (by norm_num) (by norm_num [cfgD]) rfl

/-- C8: when every attempt fails with a connectivity-class error (and the
gate passes), `obtener_bd` makes exactly `RETRIES` lease-and-probe attempts
and raises HTTP 503 whose `Retry-After` equals `COOLDOWN_SECONDS`, the full
cooldown window. -/
theorem all_fail_exact_retries_503_cooldown (cfg : Config) (inp : RunInput)
    (t0 : ℚ) (s : CBState) (hgate : s.cb_open_until ≤ t0)
    (hr : 1 ≤ cfg.RETRIES)
    (hf : ∀ i, is_conn_fail (inp.outcomes i) = true) :
    (obtener_bd cfg inp t0 s).1
        = .http 503 (some (cfg.COOLDOWN_SECONDS : ℤ))
    ∧ ((obtener_bd cfg inp t0 s).2.2.countP is_lease = cfg.RETRIES
    ∧ (obtener_bd cfg inp t0 s).2.2.countP is_probe = cfg.RETRIES) := by
  rw [obtener_bd_gate_pass cfg inp t0 s hgate]
  obtain ⟨r, hr'⟩ : ∃ r, cfg.RETRIES = r + 1 := ⟨cfg.RETRIES - 1, by omega⟩
  rw [hr']
  exact allfail_result_counts cfg inp hf r 1 cfg.INITIAL_DELAY s

/-- Witness for C8 at the default configuration: three attempts, 503 with
Retry-After 60. -/
theorem all_fail_exact_retries_503_cooldown_witness :
    (obtener_bd cfgD allConnFail 0 ⟨0, 0⟩).1
        = .http 503 (some (cfgD.COOLDOWN_SECONDS : ℤ))
    ∧ ((obtener_bd cfgD allConnFail 0 ⟨0, 0⟩).2.2.countP is_lease
          = cfgD.RETRIES
    ∧ (obtener_bd cfgD allConnFail 0 ⟨0, 0⟩).2.2.countP is_probe
          = cfgD.RETRIES) :=
  all_fail_exact_retries_503_cooldown cfgD allConnFail 0 ⟨0, 0⟩
    (by norm_num) (by norm_num [cfgD]) (fun i => rfl)

/-- C9 (counterexample): when the probe succeeds and the caller block raises
at the `yield`, the session of attempt 1 is closed twice — once by the
`finally`, once by the generic `except` clause — and the generator raises
HTTP 500; the session is not closed exactly once on that exit path. -/
theorem caller_raise_double_close :
    obtener_bd cfgD okCallerRaises 0 ⟨0, 0⟩
      = (.http 500 none, ⟨0, 0⟩,
          [.lease 1, .probe 1, .yielded 1, .close 1, .close 1])
    ∧ close_count 1 (obtener_bd cfgD okCallerRaises 0 ⟨0, 0⟩).2.2 = 2
    ∧ ¬ (close_count 1 (obtener_bd cfgD okCallerRaises 0 ⟨0, 0⟩).2.2
          = lease_count 1 (obtener_bd cfgD okCallerRaises 0 ⟨0, 0⟩).2.2) := by
  have h : obtener_bd cfgD okCallerRaises 0 ⟨0, 0⟩
      = (.http 500 none, ⟨0, 0⟩,
          [.lease 1, .probe 1, .yielded 1, .close 1, .close 1]) := by
    norm_num [obtener_bd, circuit_is_open, cfgD, okCallerRaises, attemptLoop,
      record_success]
  refine ⟨h, ?_, ?_⟩ <;> rw [h] <;>
    simp [close_count, lease_count, List.count_cons]

/-- C9 (amended): for every run, every attempt index leases at most one
session; every leased session is closed at least once and at most twice on
every exit path; and whenever the caller block does not raise, each leased
session is closed exactly once. (The double close happens only on the path
where the caller block raises at the `yield`; `Session.close` is
idempotent, so the session is still released.) -/
theorem session_close_bounds (cfg : Config) (inp : RunInput) (t0 : ℚ)
    (s : CBState) (j : ℕ) :
    lease_count j (obtener_bd cfg inp t0 s).2.2 ≤ 1
    ∧ (lease_count j (obtener_bd cfg inp t0 s).2.2
        ≤ close_count j (obtener_bd cfg inp t0 s).2.2
    ∧ (close_count j (obtener_bd cfg inp t0 s).2.2
        ≤ 2 * lease_count j (obtener_bd cfg inp t0 s).2.2
    ∧ (inp.callerRaises = false →
        close_count j (obtener_bd cfg inp t0 s).2.2
          = lease_count j (obtener_bd cfg inp t0 s).2.2))) := by
  by_cases hopen : t0 < s.cb_open_until
  · rw [obtener_bd_gate_open cfg inp t0 s hopen]
    simp [lease_count, close_count]
  · rw [obtener_bd_gate_pass cfg inp t0 s (not_lt.mp hopen)]
    obtain ⟨b1, _, b3, b4, b5⟩ :=
      close_lease_loop cfg inp cfg.RETRIES 1 cfg.INITIAL_DELAY s j
    exact ⟨b1, b3, b4, b5⟩

/-- Witness for C9 (amended) on the all-failure default run, attempt 1:
the implication premise (caller block does not raise) holds. -/
theorem session_close_bounds_witness :
    allConnFail.callerRaises = false
    ∧ (lease_count 1 (obtener_bd cfgD allConnFail 0 ⟨0, 0⟩).2.2 ≤ 1
    ∧ (lease_count 1 (obtener_bd cfgD allConnFail 0 ⟨0, 0⟩).2.2
        ≤ close_count 1 (obtener_bd cfgD allConnFail 0 ⟨0, 0⟩).2.2
    ∧ (close_count 1 (obtener_bd cfgD allConnFail 0 ⟨0, 0⟩).2.2
        ≤ 2 * lease_count 1 (obtener_bd cfgD allConnFail 0 ⟨0, 0⟩).2.2
    ∧ (allConnFail.callerRaises = false →
        close_count 1 (obtener_bd cfgD allConnFail 0 ⟨0, 0⟩).2.2
          = lease_count 1 (obtener_bd cfgD allConnFail 0 ⟨0, 0⟩).2.2)))) :=
  ⟨rfl, session_close_bounds cfgD allConnFail 0 ⟨0, 0⟩ 1⟩

/-- C10: `obtener_bd` evaluates the breaker-open check only once, before its
first attempt: if the first attempt's connectivity failure brings the
counter to the threshold (opening the breaker, `open_until = failure time +
COOLDOWN`), the same call still leases and probes attempt 2 — there is no
mid-loop short-circuit. -/
theorem no_midloop_breaker_check (cfg : Config) (inp : RunInput) (t0 : ℚ)
    (s : CBState) (hgate : s.cb_open_until ≤ t0) (hr : 2 ≤ cfg.RETRIES)
    (h1 : is_conn_fail (inp.outcomes 1) = true)
    (hth : cfg.FAILURE_THRESHOLD ≤ s.cb_fail_count + 1) :
    (record_failure cfg (inp.failTimes 1) s).cb_open_until
        = inp.failTimes 1 + (cfg.COOLDOWN_SECONDS : ℚ)
    ∧ (Event.lease 2 ∈ (obtener_bd cfg inp t0 s).2.2
    ∧ Event.probe 2 ∈ (obtener_bd cfg inp t0 s).2.2) := by
  refine ⟨by simp [record_failure, hth], ?_⟩
  rw [obtener_bd_gate_pass cfg inp t0 s hgate]
  obtain ⟨r, hr'⟩ : ∃ r, cfg.RETRIES = r + 2 := ⟨cfg.RETRIES - 2, by omega⟩
  rw [hr']
  cases ho : inp.outcomes 1 with
  | ok => rw [ho] at h1; simp [is_conn_fail] at h1
  | raises e =>
    rw [ho] at h1
    rw [attemptLoop_conn_retry cfg inp 1 r cfg.INITIAL_DELAY s e ho h1]
    obtain ⟨rest, hrest⟩ := attemptLoop_cons cfg inp 2 r
      (min (cfg.INITIAL_DELAY * 2) 10)
      (record_failure cfg (inp.failTimes 1) s)
    rw [hrest]
    constructor <;> simp

/-- Witness for C10: starting two failures below nothing (counter 2,
threshold 3), the first failure of the call opens the breaker, yet attempt 2
is still leased and probed. -/
theorem no_midloop_breaker_check_witness :
    (record_failure cfgD (allConnFail.failTimes 1) ⟨2, 0⟩).cb_open_until
        = allConnFail.failTimes 1 + (cfgD.COOLDOWN_SECONDS : ℚ)
    ∧ (Event.lease 2 ∈ (obtener_bd cfgD allConnFail 0 ⟨2, 0⟩).2.2
    ∧ Event.probe 2 ∈ (obtener_bd cfgD allConnFail 0 ⟨2, 0⟩).2.2) :=
  no_midloop_breaker_check cfgD allConnFail 0 ⟨2, 0⟩ (by norm_num)
    (by norm_num [cfgD]) rfl (by norm_num [cfgD])
